import Mathlib

/-!
Verification of the xivdyetools-maintainer request-gating pipeline.

Shallow embedding of the server's security stages:
* `validateFilePath` (src/server/utils/pathValidation.ts) over a POSIX model
  of Node's path.resolve / path.normalize;
* `timingSafeEqual` and `requireAuth` (the auth middleware);
* `requireApiKey` (the legacy api.ts key gate);
* `SessionManager.validateSession` (24h TTL session store);
* `sanitizeZodError` / `mapZodErrorCode` / `getGenericErrorMessage`
  (the validation-error sanitizer);
* `validateContentType` (content-type middleware);
* the request logger's completion-level classification;
* the locale and item-id route handlers.

Stateful or effectful pieces are modelled with explicit state passing
(session store as an association list, filesystem operations as an output
list); JavaScript exceptions are modelled with `Except Unit`.
-/

namespace XivMaintainer

/-! ## JavaScript string primitives -/

/-- Bool-valued list prefix test (kernel-reducible). -/
def isPrefixCharList : List Char → List Char → Bool
  | [], _ => true
  | _ :: _, [] => false
  | a :: as, b :: bs => a == b && isPrefixCharList as bs

/-- Does `pat` occur as a contiguous sublist of `s`? -/
def containsSubAux (pat : List Char) : List Char → Bool
  | [] => pat.isEmpty
  | c :: rest => isPrefixCharList pat (c :: rest) || containsSubAux pat rest

/-- JavaScript `s.includes(pat)`: substring containment. -/
def strContainsSubstr (s pat : String) : Bool :=
  if pat = "" then true else containsSubAux pat.data s.data

/-- JavaScript `s.startsWith(p)`. -/
def strStartsWith (s p : String) : Bool :=
  isPrefixCharList p.data s.data

/-- JavaScript `s.endsWith(p)` / Node's trailing-separator check. -/
def strEndsWith (s p : String) : Bool :=
  isPrefixCharList p.data.reverse s.data.reverse

/-- Split a character list at every occurrence of `sep` (like
`String.splitOn` with a one-character separator). -/
def splitChar (sep : Char) : List Char → List (List Char)
  | [] => [[]]
  | c :: rest =>
    let r := splitChar sep rest
    if c == sep then [] :: r
    else
      match r with
      | h :: t => (c :: h) :: t
      | [] => [[c]]

/-- The `/`-separated segments of a path string. -/
def slashSegs (s : String) : List String :=
  (splitChar '/' s.data).map (fun cs => String.mk cs)

/-- Join segments with `/` (String.intercalate, kernel-reducible). -/
def joinSlash : List String → String
  | [] => ""
  | h :: t => t.foldl (fun acc s => acc ++ "/" ++ s) h

/-- JavaScript `arr.join('.')` on a string array. -/
def joinDots : List String → String
  | [] => ""
  | h :: t => t.foldl (fun acc s => acc ++ "." ++ s) h

/-- JavaScript `s.length`: the number of UTF-16 code units (code points above
U+FFFF count twice). -/
def jsLength (s : String) : Nat :=
  s.data.foldl (fun n c => n + (if c.toNat < 65536 then 1 else 2)) 0

/-- `Buffer.from(s, 'utf-8').length`: the UTF-8 byte length of the string. -/
def utf8Len (s : String) : Nat :=
  s.data.foldl (fun n c => n + c.utf8Size) 0

/-! ## POSIX path model (Node `path.resolve` / `path.normalize` / `path.join`)

Node's `normalizeString` processes the `/`-separated segments left to right,
dropping empty and `.` segments and resolving `..` against the accumulated
stack; when `allowAboveRoot` is false (absolute paths) excess `..` segments
are discarded at the root. -/

/-- One step of Node's `normalizeString` segment processing. -/
def pathStep (allowAboveRoot : Bool) (acc : List String) (seg : String) : List String :=
  if seg = "" || seg = "." then acc
  else if seg = ".." then
    match acc.getLast? with
    | some l =>
      if l = ".." then (if allowAboveRoot then acc ++ [".."] else acc)
      else acc.dropLast
    | none => if allowAboveRoot then [".."] else []
  else acc ++ [seg]

/-- Node `normalizeString(path, allowAboveRoot, '/')`, on the segment list. -/
def normSegs (allowAboveRoot : Bool) (segs : List String) : List String :=
  segs.foldl (pathStep allowAboveRoot) []

/-- Node `path.posix.normalize`. -/
def posixNormalize (p : String) : String :=
  if p = "" then "."
  else
    let isAbs := strStartsWith p "/"
    let trailing := strEndsWith p "/"
    let core := joinSlash (normSegs (!isAbs) (slashSegs p))
    if core = "" then
      (if isAbs then "/" else if trailing then "./" else ".")
    else
      (if isAbs then "/" else "") ++ core ++ (if trailing then "/" else "")

/-- Node `path.posix.resolve(p)` with the process working directory `cwd`
(always an absolute path at runtime) supplied explicitly. -/
def posixResolve (cwd p : String) : String :=
  let combined := if strStartsWith p "/" then p else if p = "" then cwd else cwd ++ "/" ++ p
  let resolvedAbsolute := strStartsWith combined "/"
  let core := joinSlash (normSegs (!resolvedAbsolute) (slashSegs combined))
  if resolvedAbsolute then "/" ++ core
  else if core = "" then "." else core

/-- `path.sep` on POSIX. -/
def pathSep : String := "/"

/-- Node `path.posix.join(a, b)`: join the non-empty segments and normalize. -/
def posixJoin (a b : String) : String :=
  let joined := if a = "" then b else if b = "" then a else a ++ "/" ++ b
  if joined = "" then "." else posixNormalize joined

/-! ## Path containment validator (src/server/utils/pathValidation.ts) -/

/-- `validateFilePath(filePath, basePath)`: resolve both paths to absolute
form, normalize, and accept iff the file equals the base or starts with
`base + path.sep`. -/
def validateFilePath (cwd filePath basePath : String) : Bool :=
  let resolvedFile := posixResolve cwd filePath
  let resolvedBase := posixResolve cwd basePath
  let normalizedFile := posixNormalize resolvedFile
  let normalizedBase := posixNormalize resolvedBase
  normalizedFile == normalizedBase || strStartsWith normalizedFile (normalizedBase ++ pathSep)

/-- The containment predicate exactly as the specification words it:
containment holds iff, after resolving both paths to absolute form and
normalizing them, the candidate equals the root or begins with
`root + separator`. -/
def containsSpec (cwd candidate root : String) : Bool :=
  let resolvedCandidate := posixNormalize (posixResolve cwd candidate)
  let resolvedRoot := posixNormalize (posixResolve cwd root)
  resolvedCandidate == resolvedRoot || strStartsWith resolvedCandidate (resolvedRoot ++ "/")

/-! ## HTTP response envelope and gate outcomes -/

/-- The JSON error envelope `{success, error, details?}` sent by the gates. -/
structure ErrorBody where
  success : Bool
  error : String
  details : Option String
deriving DecidableEq

/-- A middleware either calls `next()` or terminates the request with a
status code and an error body. -/
inductive GateOutcome where
  | next
  | respond (status : Nat) (body : ErrorBody)
deriving DecidableEq

/-! ## Timing-safe comparator (auth middleware)

`timingSafeEqual(a, b)` first compares JavaScript string lengths (UTF-16
code units) and returns `false` on mismatch; it then hands the UTF-8
buffers to `crypto.timingSafeEqual`, which THROWS a `RangeError` when the
two buffers have different byte lengths.  Equal-byte-length UTF-8 buffers
are equal iff the strings are equal.  The throw is modelled as
`Except.error ()`. -/
def timingSafeEqual (a b : String) : Except Unit Bool :=
  if jsLength a != jsLength b then Except.ok false
  else if utf8Len a != utf8Len b then Except.error ()
  else Except.ok (a == b)

/-! ## Authentication gate `requireAuth` (auth middleware)

Headers are `Option String` (`none` = header absent).  JavaScript
truthiness makes an empty-string header fail the `sessionToken &&` and
`providedKey &&` guards, and an empty `MAINTAINER_API_KEY` fail
`if (API_KEY)`.  `validate` abstracts `sessionManager.validateSession` at
the current instant.  An exception from the comparator propagates
(`Except.error ()`), reaching Express's error handling instead of this
middleware's own responses. -/
def unauthorizedBody : ErrorBody := ⟨false, "Unauthorized", none⟩

/-- Method 1 of `requireAuth`: `sessionToken && sessionManager.validateSession(sessionToken)`. -/
def sessionPasses (sessionToken : Option String) (validate : String → Bool) : Bool :=
  match sessionToken with
  | some t => t != "" && validate t
  | none => false

/-- Method 2 of `requireAuth`: the `if (API_KEY)` fallback block.
`Except.ok (some .next)` means the key matched and the middleware calls
`next()`; `Except.ok none` means the block falls through to the 401;
`Except.error ()` means `crypto.timingSafeEqual` threw. -/
def apiKeyStep (providedKey apiKeyEnv : Option String) : Except Unit (Option GateOutcome) :=
  match apiKeyEnv with
  | some key =>
    if key != "" then
      match providedKey with
      | some k =>
        if k != "" then
          match timingSafeEqual k key with
          | Except.error _ => Except.error ()
          | Except.ok true => Except.ok (some GateOutcome.next)
          | Except.ok false => Except.ok none
        else Except.ok none
      | none => Except.ok none
    else Except.ok none
  | none => Except.ok none

def requireAuth (method : String) (sessionToken providedKey apiKeyEnv : Option String)
    (validate : String → Bool) : Except Unit GateOutcome :=
  if method = "GET" then Except.ok GateOutcome.next
  else if sessionPasses sessionToken validate then Except.ok GateOutcome.next
  else
    match apiKeyStep providedKey apiKeyEnv with
    | Except.error _ => Except.error ()
    | Except.ok (some out) => Except.ok out
    | Except.ok none => Except.ok (GateOutcome.respond 401 unauthorizedBody)

/-! ## Legacy API-key gate `requireApiKey` (api.ts, first revision) -/

def serviceNotConfiguredBody : ErrorBody :=
  ⟨false, "Service not configured. Set MAINTAINER_API_KEY environment variable.", none⟩

/-- `requireApiKey`: GET passes; without a configured (non-empty) key every
mutation gets 503; otherwise the provided header must strictly equal the
key. -/
def requireApiKey (method : String) (apiKeyEnv providedKey : Option String) : GateOutcome :=
  if method = "GET" then GateOutcome.next
  else
    match apiKeyEnv with
    | none => GateOutcome.respond 503 serviceNotConfiguredBody
    | some key =>
      if key = "" then GateOutcome.respond 503 serviceNotConfiguredBody
      else if providedKey = some key then GateOutcome.next
      else GateOutcome.respond 401 unauthorizedBody

/-! ## Session store (SessionManager) -/

/-- `SESSION_DURATION_MS = 24 * 60 * 60 * 1000` (24 hours). -/
def SESSION_DURATION_MS : Int := 24 * 60 * 60 * 1000

/-- `validateSession(token)`: look the token up; a missing token is invalid;
a found token is expired iff `now - createdAt > SESSION_DURATION_MS`, in
which case the entry is deleted from the store and the call returns false.
The `Map` of sessions is modelled as an association list (unique keys);
deletion removes the token's binding. -/
def validateSession (now : Int) (sessions : List (String × Int)) (token : String) :
    Bool × List (String × Int) :=
  match sessions.lookup token with
  | none => (false, sessions)
  | some createdAt =>
    if now - createdAt > SESSION_DURATION_MS then
      (false, sessions.filter (fun e => e.1 != token))
    else (true, sessions)

/-! ## Zod error sanitizer (rateLimiting.ts second part: errorSanitizer) -/

/-- A raw Zod issue.  `message` and `received` model the fields of the raw
error that may embed the attacker-supplied rejected value. -/
structure ZodIssue where
  code : String
  path : List String
  message : String
  received : String
deriving DecidableEq

/-- The closed enumeration `ValidationErrorCode`. -/
inductive ValidationErrorCode where
  | INVALID_TYPE
  | INVALID_FORMAT
  | REQUIRED_FIELD
  | OUT_OF_RANGE
  | TOO_SMALL
  | TOO_BIG
  | INVALID_ENUM
  | UNKNOWN
deriving DecidableEq

/-- `mapZodErrorCode`: map a Zod issue code string to a safe code. -/
def mapZodErrorCode (zodCode : String) : ValidationErrorCode :=
  if zodCode = "invalid_type" then ValidationErrorCode.INVALID_TYPE
  else if zodCode = "invalid_string" || zodCode = "invalid_literal" then
    ValidationErrorCode.INVALID_FORMAT
  else if zodCode = "too_small" then ValidationErrorCode.TOO_SMALL
  else if zodCode = "too_big" then ValidationErrorCode.TOO_BIG
  else if zodCode = "invalid_enum_value" then ValidationErrorCode.INVALID_ENUM
  else ValidationErrorCode.UNKNOWN

/-- `getGenericErrorMessage`: a message templated from the safe code and the
field path only. -/
def getGenericErrorMessage (code : ValidationErrorCode) (field : String) : String :=
  let fieldDisplay := if field = "" then "this field" else field
  match code with
  | ValidationErrorCode.INVALID_TYPE => "Field \x27" ++ fieldDisplay ++ "\x27 has invalid type"
  | ValidationErrorCode.INVALID_FORMAT => "Field \x27" ++ fieldDisplay ++ "\x27 has invalid format"
  | ValidationErrorCode.REQUIRED_FIELD => "Field \x27" ++ fieldDisplay ++ "\x27 is required"
  | ValidationErrorCode.TOO_SMALL => "Field \x27" ++ fieldDisplay ++ "\x27 value is too small"
  | ValidationErrorCode.TOO_BIG => "Field \x27" ++ fieldDisplay ++ "\x27 value is too large"
  | ValidationErrorCode.OUT_OF_RANGE => "Field \x27" ++ fieldDisplay ++ "\x27 is out of valid range"
  | ValidationErrorCode.INVALID_ENUM => "Field \x27" ++ fieldDisplay ++ "\x27 has invalid value"
  | ValidationErrorCode.UNKNOWN => "Field \x27" ++ fieldDisplay ++ "\x27 failed validation"

/-- A sanitized error detail `{field, code, message}`. -/
structure SanitizedError where
  field : String
  code : ValidationErrorCode
  message : String
deriving DecidableEq

/-- `sanitizeZodError`: map each raw issue to its safe code, dot-joined field
path, and generic message. -/
def sanitizeZodError (issues : List ZodIssue) : List SanitizedError :=
  issues.map fun err =>
    let code := mapZodErrorCode err.code
    let field := joinDots err.path
    ⟨field, code, getGenericErrorMessage code field⟩

/-! ## Content-type middleware (`validateContentType`) -/

def unsupportedMediaTypeBody : ErrorBody :=
  ⟨false, "Unsupported Media Type", some "Content-Type must be application/json"⟩

/-- Methods for which `validateContentType` enforces the header. -/
def bodyMethods : List String := ["POST", "PUT", "PATCH", "DELETE"]

/-- The `!contentLength || contentLength === '0'` guard: a falsy
(`undefined` or empty) or `"0"` Content-Length skips validation. -/
def clSkips (contentLength : Option String) : Bool :=
  match contentLength with
  | none => true
  | some s => s == "" || s == "0"

/-- The `!(!contentType || !contentType.includes('application/json'))`
condition: the Content-Type header is truthy and includes
`application/json`. -/
def ctPasses (contentType : Option String) : Bool :=
  match contentType with
  | none => false
  | some ct => !(ct == "") && strContainsSubstr ct "application/json"

/-- `validateContentType`: non-mutating methods pass; a falsy or `"0"`
Content-Length passes; otherwise the Content-Type header must be truthy and
`.includes('application/json')`, else the stage responds 415. -/
def validateContentType (method : String) (contentLength contentType : Option String) :
    GateOutcome :=
  if !(bodyMethods.contains method) then GateOutcome.next
  else if clSkips contentLength then GateOutcome.next
  else if ctPasses contentType then GateOutcome.next
  else GateOutcome.respond 415 unsupportedMediaTypeBody

/-! ## Request logger completion classification (requestLogger.ts) -/

inductive LogLevel where
  | info
  | warn
  | audit
deriving DecidableEq

/-- The method list of the AUDIT branch of `requestLogger`. -/
def auditMethods : List String := ["POST", "PUT", "DELETE", "PATCH"]

/-- The completion classification in `res.send`'s interceptor: AUDIT for a
mutating method with a 2xx status, else WARN for status >= 400, else INFO. -/
def completionLogLevel (method : String) (statusCode : Nat) : LogLevel :=
  if auditMethods.contains method && decide (200 ≤ statusCode) && decide (statusCode < 300) then
    LogLevel.audit
  else if decide (400 ≤ statusCode) then LogLevel.warn
  else LogLevel.info

/-! ## JavaScript `parseInt(s, 10)` -/

/-- JavaScript StrWhiteSpace / LineTerminator characters skipped by
`parseInt` (the common ones; Unicode space separators behave alike). -/
def isJsWhitespaceChar (c : Char) : Bool :=
  c == ' ' || c == '\t' || c == '\n' || c == '\r' || c == '\x0b' || c == '\x0c' ||
  c == Char.ofNat 0xa0 || c == Char.ofNat 0xfeff

/-- Value of a list of decimal digit characters. -/
def digitsVal (ds : List Char) : Nat :=
  ds.foldl (fun n c => n * 10 + (c.toNat - 48)) 0

/-- JavaScript `parseInt(s, 10)`: skip leading whitespace, read an optional
sign, then the longest prefix of decimal digits; `NaN` (modelled `none`)
iff that prefix is empty; trailing garbage is ignored. -/
def jsParseIntBase10 (s : String) : Option Int :=
  let cs := s.data.dropWhile isJsWhitespaceChar
  let signed : Bool × List Char :=
    match cs with
    | '-' :: t => (true, t)
    | '+' :: t => (false, t)
    | t => (false, t)
  let digits := signed.2.takeWhile (fun c => c.isDigit)
  if digits.isEmpty then none
  else
    let n : Int := Int.ofNat (digitsVal digits)
    some (if signed.1 then -n else n)

/-! ## Route handlers (api.ts) -/

/-- `GET /api/validate/:itemId` outcome: 400 `'Invalid item ID'`, or a 200
`{exists}` body. -/
inductive ItemIdResult where
  | invalidId
  | okBody (itemExists : Bool)
deriving DecidableEq

/-- The `/api/validate/:itemId` handler: `parseInt(param, 10)`, reject with
400 on NaN, else report whether some dye has `itemID === itemId` (a null
`itemID` is never strictly equal to a number). -/
def validateItemIdHandler (param : String) (dyes : List (Option Int)) : ItemIdResult :=
  match jsParseIntBase10 param with
  | none => ItemIdResult.invalidId
  | some itemId => ItemIdResult.okBody (dyes.any (fun d => d == some itemId))

/-- The locale allow-list of both locale handlers. -/
def validLocaleCodes : List String := ["en", "ja", "de", "fr", "ko", "zh"]

/-- Locale handler responses. -/
inductive LocaleResponse where
  | invalidLocale
  | invalidPath
  | fileData
  | writeOk
  | ioError (msg : String)
deriving DecidableEq

/-- Status code of each locale handler response. -/
def localeResponseStatus : LocaleResponse → Nat
  | LocaleResponse.invalidLocale => 400
  | LocaleResponse.invalidPath => 400
  | LocaleResponse.fileData => 200
  | LocaleResponse.writeOk => 200
  | LocaleResponse.ioError _ => 500

/-- Error string of each locale handler response (`none` for 2xx bodies). -/
def localeResponseError : LocaleResponse → Option String
  | LocaleResponse.invalidLocale => some "Invalid locale code"
  | LocaleResponse.invalidPath => some "Invalid file path"
  | LocaleResponse.fileData => none
  | LocaleResponse.writeOk => none
  | LocaleResponse.ioError m => some m

/-- A filesystem operation performed by a handler. -/
inductive FsOp where
  | readFile (p : String)
  | writeFile (p : String)
deriving DecidableEq

/-- `GET /api/locale/:code`: allow-list check, then `path.join`, then
`validateFilePath` against `LOCALES_PATH`, then the file read (`readOk`
abstracts whether `readJsonFile` succeeds).  The returned list records the
filesystem operations performed. -/
def localeGetHandler (cwd localesPath code : String) (readOk : Bool) :
    LocaleResponse × List FsOp :=
  if !(validLocaleCodes.contains code) then (LocaleResponse.invalidLocale, [])
  else
    let filePath := posixJoin localesPath (code ++ ".json")
    if !(validateFilePath cwd filePath localesPath) then (LocaleResponse.invalidPath, [])
    else if readOk then (LocaleResponse.fileData, [FsOp.readFile filePath])
    else (LocaleResponse.ioError ("Failed to read locale file: " ++ code),
          [FsOp.readFile filePath])

/-- `POST /api/locale/:code` (handler body, after rate limiting and schema
validation): same shape as the GET handler but writing the file. -/
def localePostHandler (cwd localesPath code : String) (writeOk : Bool) :
    LocaleResponse × List FsOp :=
  if !(validLocaleCodes.contains code) then (LocaleResponse.invalidLocale, [])
  else
    let filePath := posixJoin localesPath (code ++ ".json")
    if !(validateFilePath cwd filePath localesPath) then (LocaleResponse.invalidPath, [])
    else if writeOk then (LocaleResponse.writeOk, [FsOp.writeFile filePath])
    else (LocaleResponse.ioError ("Failed to write locale file: " ++ code),
          [FsOp.writeFile filePath])

/-! ## Helper lemmas -/

/-- The comparator reports `true` exactly on equal strings: equal strings
pass all three stages, and an `ok true` can only come from the final
byte-wise equality. -/
theorem timingSafeEqual_ok_true_iff (a b : String) :
    timingSafeEqual a b = Except.ok true ↔ a = b := by
  unfold timingSafeEqual
  by_cases h1 : jsLength a = jsLength b
  · by_cases h2 : utf8Len a = utf8Len b
    · simp [h1, h2]
    · rw [if_neg (by simp [h1]), if_pos (by simp [h2])]
      constructor
      · intro h
        exact absurd h (by simp)
      · rintro rfl
        exact absurd rfl h2
  · rw [if_pos (by simp [h1])]
    constructor
    · intro h
      exact absurd h (by simp)
    · rintro rfl
      exact absurd rfl h1

/-- Deleting a key from the association list makes lookups of it fail. -/
theorem lookup_filter_ne (token : String) (l : List (String × Int)) :
    (l.filter (fun e => e.1 != token)).lookup token = none := by
  induction l with
  | nil => rfl
  | cons h t ih =>
    by_cases hk : h.1 = token
    · simp [List.filter_cons, hk, ih]
    · have hb : (token == h.1) = false := beq_eq_false_iff_ne.mpr (Ne.symm hk)
      have hb2 : (h.1 != token) = true := by simp [hk]
      simp [List.filter_cons, hb2, List.lookup, hb, ih]

/-- Method 1 passes iff a presented token validates, given that the empty
string never validates (the store only holds 64-hex-char generated
tokens). -/
theorem sessionPasses_true_iff (sessionToken : Option String) (validate : String → Bool)
    (hTok : validate "" = false) :
    sessionPasses sessionToken validate = true ↔
      ∃ t, sessionToken = some t ∧ validate t = true := by
  cases sessionToken with
  | none => simp [sessionPasses]
  | some t =>
    by_cases ht : t = ""
    · subst ht
      simp [sessionPasses, hTok]
    · simp [sessionPasses, ht]

/-- Method 2 either accepts a matching key, falls through, or throws; when
the comparator cannot throw it accepts exactly a configured non-empty key
matched by the presented one, and otherwise falls through to the 401. -/
theorem apiKeyStep_cases (providedKey apiKeyEnv : Option String)
    (hSafe : ∀ k key, providedKey = some k → apiKeyEnv = some key →
      timingSafeEqual k key ≠ Except.error ()) :
    (apiKeyStep providedKey apiKeyEnv = Except.ok (some GateOutcome.next) ↔
      ∃ key k, apiKeyEnv = some key ∧ key ≠ "" ∧ providedKey = some k ∧
        timingSafeEqual k key = Except.ok true) ∧
    (apiKeyStep providedKey apiKeyEnv ≠ Except.ok (some GateOutcome.next) →
      apiKeyStep providedKey apiKeyEnv = Except.ok none) := by
  cases apiKeyEnv with
  | none => simp [apiKeyStep]
  | some key =>
    by_cases hke : key = ""
    · subst hke
      simp [apiKeyStep]
    · have hkeb : (key != "") = true := by simp [hke]
      cases providedKey with
      | none => simp [apiKeyStep, hkeb, hke]
      | some k =>
        by_cases hkne : k = ""
        · subst hkne
          have h0 : apiKeyStep (some "") (some key) = Except.ok none := by
            simp [apiKeyStep, hkeb]
          rw [h0]
          constructor
          · constructor
            · intro h
              exact absurd h (by simp)
            · rintro ⟨key2, k2, hk, hne, hp, htse⟩
              cases hk
              cases hp
              exact absurd ((timingSafeEqual_ok_true_iff _ _).mp htse).symm hne
          · intro _
            rfl
        · have hknb : (k != "") = true := by simp [hkne]
          have hstep : apiKeyStep (some k) (some key) =
              (match timingSafeEqual k key with
                | Except.error _ => Except.error ()
                | Except.ok true => Except.ok (some GateOutcome.next)
                | Except.ok false => Except.ok none) := by
            simp [apiKeyStep, hkeb, hknb]
          cases htse : timingSafeEqual k key with
          | error e =>
            cases e
            exact absurd htse (hSafe k key rfl rfl)
          | ok b =>
            rw [htse] at hstep
            cases b with
            | true =>
              rw [hstep]
              constructor
              · exact ⟨fun _ => ⟨key, k, rfl, hke, rfl, htse⟩, fun _ => rfl⟩
              · intro h
                exact absurd rfl h
            | false =>
              rw [hstep]
              constructor
              · constructor
                · intro h
                  exact absurd h (by simp)
                · rintro ⟨key2, k2, hk, hne, hp, htse2⟩
                  cases hk
                  cases hp
                  exact absurd (htse.symm.trans htse2) (by simp)
              · intro _
                rfl

/-- `mapZodErrorCode` only ever produces the six codes of its `switch`
(never `REQUIRED_FIELD` or `OUT_OF_RANGE` from elsewhere in the enum). -/
theorem mapZodErrorCode_closed (zodCode : String) :
    mapZodErrorCode zodCode = ValidationErrorCode.INVALID_TYPE ∨
    mapZodErrorCode zodCode = ValidationErrorCode.INVALID_FORMAT ∨
    mapZodErrorCode zodCode = ValidationErrorCode.TOO_SMALL ∨
    mapZodErrorCode zodCode = ValidationErrorCode.TOO_BIG ∨
    mapZodErrorCode zodCode = ValidationErrorCode.INVALID_ENUM ∨
    mapZodErrorCode zodCode = ValidationErrorCode.UNKNOWN := by
  unfold mapZodErrorCode
  repeat' split
  all_goals simp

/-! ## C1: path containment -/

/-- C1: `validateFilePath(candidate, base)` returns true iff, after resolving
both to absolute form and normalizing, the candidate equals the base or
begins with the base followed by the path separator (`containsSpec` is that
property verbatim); in particular containment of `/data/locales/en.json` in
`/data/locales` holds, while the `..`-traversal and the
prefix-without-separator candidates are rejected. -/
theorem validateFilePath_containment_spec :
    (∀ cwd filePath basePath,
      validateFilePath cwd filePath basePath = containsSpec cwd filePath basePath) ∧
    validateFilePath "/srv" "/data/locales/en.json" "/data/locales" = true ∧
    validateFilePath "/srv" "/data/locales/../../etc/passwd" "/data/locales" = false ∧
    validateFilePath "/srv" "/data/localesExtra/en.json" "/data/locales" = false :=
  ⟨fun _ _ _ => rfl, rfl, rfl, rfl⟩

/-! ## C4: the comparator can raise -/

/-- C4: the comparator does NOT return a boolean on every pair of strings:
for `a = "ab"` and `b = "é!"` the JavaScript lengths agree (2 = 2), so the
length guard passes, but the UTF-8 buffers have byte lengths 2 and 3 and
`crypto.timingSafeEqual` throws a `RangeError` (modelled `Except.error ()`),
contradicting the contract that `equals` always returns false-not-error. -/
theorem timingSafeEqual_raises_on_unequal_byte_lengths :
    jsLength "ab" = jsLength "é!" ∧
    utf8Len "ab" ≠ utf8Len "é!" ∧
    timingSafeEqual "ab" "é!" = Except.error () :=
  ⟨rfl, by decide, rfl⟩

/-! ## C8: completion log classification -/

/-- C8: the completion classification follows the fixed precedence: AUDIT
for a mutating method (POST/PUT/DELETE/PATCH) with status in [200, 300);
otherwise WARN for status >= 400; otherwise INFO. -/
theorem completionLogLevel_precedence (method : String) (statusCode : Nat) :
    (completionLogLevel method statusCode = LogLevel.audit ↔
      (method ∈ auditMethods ∧ 200 ≤ statusCode ∧ statusCode < 300)) ∧
    (completionLogLevel method statusCode = LogLevel.warn ↔
      (¬(method ∈ auditMethods ∧ 200 ≤ statusCode ∧ statusCode < 300) ∧ 400 ≤ statusCode)) ∧
    (completionLogLevel method statusCode = LogLevel.info ↔
      (¬(method ∈ auditMethods ∧ 200 ≤ statusCode ∧ statusCode < 300) ∧ statusCode < 400)) := by
  unfold completionLogLevel
  by_cases hm : method ∈ auditMethods
  · have hc : auditMethods.contains method = true := by
      simpa [List.contains] using List.elem_iff.mpr hm
    by_cases h2 : 200 ≤ statusCode
    · by_cases h3 : statusCode < 300
      · simp [hc, hm, h2, h3]
      · by_cases h4 : 400 ≤ statusCode
        · have h5 : ¬ statusCode < 400 := by omega
          simp [hc, hm, h2, h3, h4, h5]
        · have h5 : statusCode < 400 := by omega
          simp [hc, hm, h2, h3, h4, h5]
    · have h3 : statusCode < 300 := by omega
      have h4 : ¬ 400 ≤ statusCode := by omega
      have h5 : statusCode < 400 := by omega
      simp [hc, hm, h2, h3, h4, h5]
  · have hc : auditMethods.contains method = false := by
      simp only [List.contains]
      exact Bool.eq_false_iff.mpr (fun h => hm (List.elem_iff.mp h))
    by_cases h4 : 400 ≤ statusCode
    · have h5 : ¬ statusCode < 400 := by omega
      simp [hc, hm, h4, h5]
    · have h5 : statusCode < 400 := by omega
      simp [hc, hm, h4, h5]

/-! ## C2: authentication gate -/

/-- C2 counterexample: a POST with configured secret `"ab"` and presented
key `"é!"` (equal JavaScript length, different UTF-8 byte length, and not a
match) is NOT denied with 401 — the comparator throws and the exception
propagates out of the gate, contrary to the claim that every non-passing
request gets the 401 Unauthorized response. -/
theorem requireAuth_throw_counterexample :
    requireAuth "POST" none (some "é!") (some "ab") (fun _ => false) = Except.error () ∧
    (Except.error () : Except Unit GateOutcome) ≠
      Except.ok (GateOutcome.respond 401 unauthorizedBody) :=
  ⟨rfl, fun h => Except.noConfusion h⟩

/-- C2 (amended): provided the empty string is never a valid session token
(the store only ever holds generated 64-hex-char tokens) and the comparator
does not throw on the presented key (it can, for keys of equal UTF-16 but
different UTF-8 length), the gate passes iff the request is a GET, or the
presented session token validates (checked first), or a non-empty shared
secret is configured and the presented API key matches it via the
timing-safe comparator; in every other case it responds 401
`{success:false, error:"Unauthorized"}`. -/
theorem requireAuth_characterization (method : String)
    (sessionToken providedKey apiKeyEnv : Option String) (validate : String → Bool)
    (hTok : validate "" = false)
    (hSafe : ∀ k key, providedKey = some k → apiKeyEnv = some key →
      timingSafeEqual k key ≠ Except.error ()) :
    (requireAuth method sessionToken providedKey apiKeyEnv validate = Except.ok GateOutcome.next ↔
      (method = "GET" ∨
       (∃ t, sessionToken = some t ∧ validate t = true) ∨
       (∃ key k, apiKeyEnv = some key ∧ key ≠ "" ∧ providedKey = some k ∧
         timingSafeEqual k key = Except.ok true))) ∧
    (requireAuth method sessionToken providedKey apiKeyEnv validate ≠ Except.ok GateOutcome.next →
      requireAuth method sessionToken providedKey apiKeyEnv validate =
        Except.ok (GateOutcome.respond 401 unauthorizedBody)) := by
  have hsess := sessionPasses_true_iff sessionToken validate hTok
  have hkey := apiKeyStep_cases providedKey apiKeyEnv hSafe
  unfold requireAuth
  by_cases hg : method = "GET"
  · simp [hg]
  · rw [if_neg hg]
    by_cases hs : sessionPasses sessionToken validate
    · rw [if_pos hs]
      exact ⟨⟨fun _ => Or.inr (Or.inl (hsess.mp hs)), fun _ => rfl⟩,
        fun h => absurd rfl h⟩
    · rw [if_neg hs]
      have hnosess : ¬ ∃ t, sessionToken = some t ∧ validate t = true :=
        fun h => hs (hsess.mpr h)
      by_cases hk : apiKeyStep providedKey apiKeyEnv = Except.ok (some GateOutcome.next)
      · rw [hk]
        exact ⟨⟨fun _ => Or.inr (Or.inr (hkey.1.mp hk)), fun _ => rfl⟩,
          fun h => absurd rfl h⟩
      · rw [hkey.2 hk]
        refine ⟨⟨fun h => absurd h (by simp), ?_⟩, fun _ => rfl⟩
        rintro (h | h | h)
        · exact absurd h hg
        · exact absurd h hnosess
        · exact absurd (hkey.1.mpr h) hk

/-- C2 amended-claim witness at concrete inputs: a POST with a validating
session token passes, and a POST with no credentials is denied 401. -/
theorem requireAuth_characterization_witness :
    requireAuth "POST" (some "tok") none none (fun t => t == "tok") =
      Except.ok GateOutcome.next ∧
    requireAuth "POST" none none none (fun t => t == "tok") =
      Except.ok (GateOutcome.respond 401 unauthorizedBody) := by
  constructor
  · exact (requireAuth_characterization "POST" (some "tok") none none (fun t => t == "tok")
      (by decide) (fun k key hk _ => by cases hk)).1.mpr
      (Or.inr (Or.inl ⟨"tok", rfl, by decide⟩))
  · exact (requireAuth_characterization "POST" none none none (fun t => t == "tok")
      (by decide) (fun k key hk _ => by cases hk)).2
      (by intro h; injection h with h2; exact GateOutcome.noConfusion h2)

/-! ## C3: session validation -/

/-- C3: `validateSession(t)` returns true iff the token is in the store and
`now - createdAt <= SESSION_DURATION_MS` (24 hours); a found-but-expired
token is deleted from the store (its binding is gone afterwards) and the
call returns false. -/
theorem validateSession_spec (now : Int) (sessions : List (String × Int)) (token : String) :
    ((validateSession now sessions token).1 = true ↔
      ∃ createdAt, sessions.lookup token = some createdAt ∧
        now - createdAt ≤ SESSION_DURATION_MS) ∧
    (∀ createdAt, sessions.lookup token = some createdAt →
      now - createdAt > SESSION_DURATION_MS →
      (validateSession now sessions token).1 = false ∧
      (validateSession now sessions token).2 = sessions.filter (fun e => e.1 != token) ∧
      ((validateSession now sessions token).2).lookup token = none) := by
  cases hl : sessions.lookup token with
  | none =>
    have hv : validateSession now sessions token = (false, sessions) := by
      unfold validateSession
      rw [hl]
    simp [hv]
  | some createdAt =>
    by_cases hexp : now - createdAt > SESSION_DURATION_MS
    · have hv : validateSession now sessions token =
          (false, sessions.filter (fun e => e.1 != token)) := by
        unfold validateSession
        rw [hl]
        exact if_pos hexp
      refine ⟨?_, ?_⟩
      · rw [hv]
        simp only [Option.some.injEq]
        constructor
        · intro h
          simp at h
        · rintro ⟨c, hc, hle⟩
          subst hc
          exact absurd hexp (not_lt_of_le hle)
      · intro c hc hce
        cases hc
        exact ⟨by rw [hv], by rw [hv], by rw [hv]; exact lookup_filter_ne token sessions⟩
    · have hv : validateSession now sessions token = (true, sessions) := by
        unfold validateSession
        rw [hl]
        exact if_neg hexp
      refine ⟨?_, ?_⟩
      · rw [hv]
        simp only [Option.some.injEq]
        exact ⟨fun _ => ⟨createdAt, rfl, le_of_not_lt hexp⟩, fun _ => trivial⟩
      · intro c hc hce
        cases hc
        exact absurd hce hexp

/-- C3 witness: with the fixed reference clock, a token created at 0 is
still valid at exactly the TTL and is invalid and deleted one millisecond
after it. -/
theorem validateSession_spec_witness :
    (validateSession 86400000 [("t", 0)] "t").1 = true ∧
    (validateSession 86400001 [("t", 0)] "t").1 = false ∧
    ((validateSession 86400001 [("t", 0)] "t").2).lookup "t" = none := by
  refine ⟨?_, ?_, ?_⟩
  · exact (validateSession_spec 86400000 [("t", 0)] "t").1.mpr ⟨0, rfl, by decide⟩
  · exact ((validateSession_spec 86400001 [("t", 0)] "t").2 0 rfl (by decide)).1
  · exact ((validateSession_spec 86400001 [("t", 0)] "t").2 0 rfl (by decide)).2.2

/-! ## C5: unconfigured shared secret -/

/-- C5 counterexample: in the pipeline server's gate (`requireAuth`), a POST
presenting an API key while no shared secret is configured is denied with
401, not 503 as the claim states. -/
theorem requireAuth_unconfigured_key_401_not_503 :
    requireAuth "POST" none (some "k") none (fun _ => false) =
      Except.ok (GateOutcome.respond 401 unauthorizedBody) ∧
    (401 : Nat) ≠ 503 :=
  ⟨rfl, by decide⟩

/-- C5 (amended): with `MAINTAINER_API_KEY` unset, the legacy `requireApiKey`
middleware responds 503 (service unconfigured) to every mutating request,
key-based attempt or not; the session-based `requireAuth` gate used by the
hardened pipeline server instead responds 401 Unauthorized to a key-based
attempt unless a valid session token accompanies it. -/
theorem unconfiguredKey_503_legacy_401_pipeline :
    (∀ providedKey, requireApiKey "POST" none providedKey =
      GateOutcome.respond 503 serviceNotConfiguredBody) ∧
    (∀ sessionToken providedKey (validate : String → Bool),
      validate "" = false →
      (∀ t, sessionToken = some t → validate t = false) →
      requireAuth "POST" sessionToken providedKey none validate =
        Except.ok (GateOutcome.respond 401 unauthorizedBody)) := by
  constructor
  · intro providedKey
    rfl
  · intro sessionToken providedKey validate h0 h1
    have hs : sessionPasses sessionToken validate = false := by
      cases sessionToken with
      | none => rfl
      | some t => simp [sessionPasses, h1 t rfl]
    unfold requireAuth
    rw [if_neg (by decide), if_neg (by simp [hs])]
    rfl

/-- C5 amended-claim witness at concrete inputs. -/
theorem unconfiguredKey_503_legacy_401_pipeline_witness :
    requireApiKey "POST" none none = GateOutcome.respond 503 serviceNotConfiguredBody ∧
    requireAuth "POST" (some "s") (some "k") none (fun _ => false) =
      Except.ok (GateOutcome.respond 401 unauthorizedBody) :=
  ⟨unconfiguredKey_503_legacy_401_pipeline.1 none,
   unconfiguredKey_503_legacy_401_pipeline.2 (some "s") (some "k") (fun _ => false)
     rfl (fun _ _ => rfl)⟩

/-! ## C6: error sanitization -/

/-- C6: every sanitized error carries a code from the closed set
INVALID_TYPE / INVALID_FORMAT / REQUIRED_FIELD / TOO_SMALL / TOO_BIG /
INVALID_ENUM / UNKNOWN, a field equal to the dot-joined error path only,
and a message computed solely from the code and field; the output is
invariant under any change of the raw issue's message and received value,
so the rejected input value never reaches it. -/
theorem sanitizeZodError_safe :
    (∀ issues e, e ∈ sanitizeZodError issues →
      (e.code = ValidationErrorCode.INVALID_TYPE ∨
       e.code = ValidationErrorCode.INVALID_FORMAT ∨
       e.code = ValidationErrorCode.REQUIRED_FIELD ∨
       e.code = ValidationErrorCode.TOO_SMALL ∨
       e.code = ValidationErrorCode.TOO_BIG ∨
       e.code = ValidationErrorCode.INVALID_ENUM ∨
       e.code = ValidationErrorCode.UNKNOWN) ∧
      (∃ i ∈ issues, e.field = joinDots i.path ∧ e.code = mapZodErrorCode i.code ∧
        e.message = getGenericErrorMessage e.code e.field)) ∧
    (∀ issues (received message : ZodIssue → String),
      sanitizeZodError (issues.map (fun i =>
        { i with received := received i, message := message i })) =
      sanitizeZodError issues) := by
  constructor
  · intro issues e he
    rw [sanitizeZodError, List.mem_map] at he
    obtain ⟨i, hi, hei⟩ := he
    subst hei
    constructor
    · rcases mapZodErrorCode_closed i.code with h | h | h | h | h | h <;> simp [h]
    · exact ⟨i, hi, rfl, rfl, rfl⟩
  · intro issues received message
    rw [sanitizeZodError, sanitizeZodError, List.map_map]
    rfl

/-- C6 witness: for the raw issue `invalid_type` at path `itemID` carrying
the rejected value `"not-a-number"`, the sanitized output is exactly the
safe triple, and the string `"not-a-number"` occurs in none of its
fields. -/
theorem sanitizeZodError_safe_witness :
    sanitizeZodError [⟨"invalid_type", ["itemID"], "Expected number, received string",
        "not-a-number"⟩] =
      [⟨"itemID", ValidationErrorCode.INVALID_TYPE,
        "Field \x27itemID\x27 has invalid type"⟩] ∧
    (let e := (⟨"itemID", ValidationErrorCode.INVALID_TYPE,
        "Field \x27itemID\x27 has invalid type"⟩ : SanitizedError)
     e.code = ValidationErrorCode.INVALID_TYPE ∨
     e.code = ValidationErrorCode.INVALID_FORMAT ∨
     e.code = ValidationErrorCode.REQUIRED_FIELD ∨
     e.code = ValidationErrorCode.TOO_SMALL ∨
     e.code = ValidationErrorCode.TOO_BIG ∨
     e.code = ValidationErrorCode.INVALID_ENUM ∨
     e.code = ValidationErrorCode.UNKNOWN) ∧
    strContainsSubstr "Field \x27itemID\x27 has invalid type" "not-a-number" = false ∧
    strContainsSubstr "itemID" "not-a-number" = false := by
  refine ⟨rfl, ?_, by decide, by decide⟩
  exact (sanitizeZodError_safe.1
    [⟨"invalid_type", ["itemID"], "Expected number, received string", "not-a-number"⟩]
    ⟨"itemID", ValidationErrorCode.INVALID_TYPE, "Field \x27itemID\x27 has invalid type"⟩
    (by rw [(rfl : sanitizeZodError [⟨"invalid_type", ["itemID"],
        "Expected number, received string", "not-a-number"⟩] =
      [⟨"itemID", ValidationErrorCode.INVALID_TYPE,
        "Field \x27itemID\x27 has invalid type"⟩])]; exact List.mem_singleton.mpr rfl)).1

/-! ## C7: content-type enforcement -/

/-- C7 counterexample: a POST with a body whose Content-Type header is
`xapplication/json` — not `application/json` — passes the stage instead of
being rejected with 415, because the code tests
`contentType.includes('application/json')` rather than media-type
equality. -/
theorem validateContentType_substring_counterexample :
    validateContentType "POST" (some "5") (some "xapplication/json") = GateOutcome.next ∧
    "xapplication/json" ≠ "application/json" ∧
    validateContentType "POST" (some "5") (some "xapplication/json") ≠
      GateOutcome.respond 415 unsupportedMediaTypeBody := by
  refine ⟨rfl, by decide, ?_⟩
  intro h
  exact GateOutcome.noConfusion
    ((rfl : validateContentType "POST" (some "5") (some "xapplication/json") =
      GateOutcome.next).symm.trans h)

/-- C7 (amended): for a mutating method with a present, non-`"0"`,
non-empty Content-Length, the stage passes iff the Content-Type header is
present and CONTAINS `application/json` as a substring (charset suffixes
pass, but so does any other embedding of the substring); otherwise it
responds 415 `{success:false, error:"Unsupported Media Type"}`; requests
without a body and non-mutating methods pass unconditionally. -/
theorem validateContentType_characterization (method : String)
    (contentLength contentType : Option String) :
    (validateContentType method contentLength contentType = GateOutcome.next ↔
      (method ∉ bodyMethods ∨ contentLength = none ∨ contentLength = some "" ∨
       contentLength = some "0" ∨
       ∃ ct, contentType = some ct ∧ strContainsSubstr ct "application/json" = true)) ∧
    (validateContentType method contentLength contentType ≠ GateOutcome.next →
      validateContentType method contentLength contentType =
        GateOutcome.respond 415 unsupportedMediaTypeBody) := by
  have hcliff : clSkips contentLength = true ↔
      (contentLength = none ∨ contentLength = some "" ∨ contentLength = some "0") := by
    cases contentLength with
    | none => simp [clSkips]
    | some s => simp [clSkips]
  have hctiff : ctPasses contentType = true ↔
      ∃ ct, contentType = some ct ∧ strContainsSubstr ct "application/json" = true := by
    cases contentType with
    | none => simp [ctPasses]
    | some ct =>
      by_cases hs : ct = ""
      · subst hs
        constructor
        · intro h
          exact absurd h (by decide)
        · rintro ⟨s2, hs2, hc⟩
          cases hs2
          exact absurd hc (by decide)
      · simp [ctPasses, hs]
  by_cases hm : method ∈ bodyMethods
  · have hmb : bodyMethods.contains method = true := by
      simpa [List.contains] using List.elem_iff.mpr hm
    by_cases hcl : clSkips contentLength = true
    · have hnext : validateContentType method contentLength contentType = GateOutcome.next := by
        unfold validateContentType
        rw [if_neg (by simp; exact hm), if_pos hcl]
      rw [hnext]
      refine ⟨⟨fun _ => ?_, fun _ => rfl⟩, fun h => absurd rfl h⟩
      rcases hcliff.mp hcl with h | h | h
      · exact Or.inr (Or.inl h)
      · exact Or.inr (Or.inr (Or.inl h))
      · exact Or.inr (Or.inr (Or.inr (Or.inl h)))
    · have hclf : ¬ (clSkips contentLength = true) := hcl
      by_cases hct : ctPasses contentType = true
      · have hnext : validateContentType method contentLength contentType =
            GateOutcome.next := by
          unfold validateContentType
          rw [if_neg (by simp; exact hm), if_neg hclf, if_pos hct]
        rw [hnext]
        exact ⟨⟨fun _ => Or.inr (Or.inr (Or.inr (Or.inr (hctiff.mp hct)))), fun _ => rfl⟩,
          fun h => absurd rfl h⟩
      · have h415 : validateContentType method contentLength contentType =
            GateOutcome.respond 415 unsupportedMediaTypeBody := by
          unfold validateContentType
          rw [if_neg (by simp; exact hm), if_neg hclf, if_neg hct]
        rw [h415]
        refine ⟨⟨fun h => GateOutcome.noConfusion h, ?_⟩, fun _ => rfl⟩
        rintro (h | h | h | h | h)
        · exact absurd hm h
        · exact absurd (hcliff.mpr (Or.inl h)) hcl
        · exact absurd (hcliff.mpr (Or.inr (Or.inl h))) hcl
        · exact absurd (hcliff.mpr (Or.inr (Or.inr h))) hcl
        · exact absurd (hctiff.mpr h) hct
  · have hmb : bodyMethods.contains method = false := by
      simp only [List.contains]
      exact Bool.eq_false_iff.mpr (fun h => hm (List.elem_iff.mp h))
    have hnext : validateContentType method contentLength contentType = GateOutcome.next := by
      unfold validateContentType
      rw [if_pos (by simp; exact hm)]
    rw [hnext]
    exact ⟨⟨fun _ => Or.inl hm, fun _ => rfl⟩, fun h => absurd rfl h⟩

/-- C7 amended-claim witness at concrete inputs: a JSON POST with a body
passes; a GET without JSON passes. -/
theorem validateContentType_characterization_witness :
    validateContentType "POST" (some "3") (some "application/json; charset=utf-8") =
      GateOutcome.next ∧
    validateContentType "GET" (some "3") (some "text/html") = GateOutcome.next := by
  constructor
  · exact (validateContentType_characterization "POST" (some "3")
      (some "application/json; charset=utf-8")).1.mpr
      (Or.inr (Or.inr (Or.inr (Or.inr ⟨"application/json; charset=utf-8", rfl, by decide⟩))))
  · exact (validateContentType_characterization "GET" (some "3") (some "text/html")).1.mpr
      (Or.inl (by decide))

/-! ## C9: locale code allow-list -/

/-- C9: for any locale code outside the six-element allow-list, both the GET
and the POST locale handlers respond 400 `Invalid locale code` and perform
no filesystem operation (the recorded operation lists are empty), before
any path validation. -/
theorem localeHandlers_reject_invalid_code (cwd localesPath code : String) (ok : Bool)
    (h : code ∉ validLocaleCodes) :
    localeGetHandler cwd localesPath code ok = (LocaleResponse.invalidLocale, []) ∧
    localePostHandler cwd localesPath code ok = (LocaleResponse.invalidLocale, []) ∧
    localeResponseStatus LocaleResponse.invalidLocale = 400 ∧
    localeResponseError LocaleResponse.invalidLocale = some "Invalid locale code" := by
  refine ⟨?_, ?_, rfl, rfl⟩
  · unfold localeGetHandler
    rw [if_pos (by simp; exact h)]
  · unfold localePostHandler
    rw [if_pos (by simp; exact h)]

/-- C9 witness at the concrete out-of-list codes `"xx"` and `"../en"`. -/
theorem localeHandlers_reject_invalid_code_witness :
    localeGetHandler "/srv" "/data/locales" "xx" true = (LocaleResponse.invalidLocale, []) ∧
    localePostHandler "/srv" "/data/locales" "../en" true =
      (LocaleResponse.invalidLocale, []) :=
  ⟨(localeHandlers_reject_invalid_code "/srv" "/data/locales" "xx" true (by decide)).1,
   (localeHandlers_reject_invalid_code "/srv" "/data/locales" "../en" true (by decide)).2.1⟩

/-! ## C10: item-id validation -/

/-- C10: the `/api/validate/:itemId` handler rejects with 400 exactly when
`parseInt(param, 10)` is NaN; otherwise it reports whether some colors-file
entry has `itemID` strictly equal to the parsed integer; `"12abc"` is not
rejected but parsed as 12. -/
theorem validateItemIdHandler_spec :
    (∀ param dyes, validateItemIdHandler param dyes = ItemIdResult.invalidId ↔
      jsParseIntBase10 param = none) ∧
    (∀ param dyes n, jsParseIntBase10 param = some n →
      validateItemIdHandler param dyes =
        ItemIdResult.okBody (dyes.any (fun d => d == some n))) ∧
    (∀ (dyes : List (Option Int)) (n : Int), dyes.any (fun d => d == some n) = true ↔
      ∃ d ∈ dyes, d = some n) ∧
    jsParseIntBase10 "12abc" = some 12 := by
  refine ⟨?_, ?_, ?_, rfl⟩
  · intro param dyes
    unfold validateItemIdHandler
    cases hp : jsParseIntBase10 param with
    | none => simp
    | some n => simp
  · intro param dyes n hp
    unfold validateItemIdHandler
    rw [hp]
  · intro dyes n
    rw [List.any_eq_true]
    constructor
    · rintro ⟨d, hd, he⟩
      exact ⟨d, hd, by simpa using he⟩
    · rintro ⟨d, hd, he⟩
      exact ⟨d, hd, by simpa using he⟩

/-- C10 witness: at `param = "12abc"` with a store containing item 12 the
handler reports existence, and at `param = "abc"` it rejects. -/
theorem validateItemIdHandler_spec_witness :
    validateItemIdHandler "12abc" [some 12, none, some 5] = ItemIdResult.okBody true ∧
    validateItemIdHandler "abc" [some 12] = ItemIdResult.invalidId := by
  constructor
  · have h := validateItemIdHandler_spec.2.1 "12abc" [some 12, none, some 5] 12 rfl
    rw [h]
    rfl
  · exact (validateItemIdHandler_spec.1 "abc" [some 12]).mpr rfl

end XivMaintainer
